import Mathlib

/-!
Verification of the morph `client` package: a wrapper over a web-socket
neo-go client providing smart-contract invocation and notification
subscription functionality.

The Go code is embedded shallowly:
* `util.Uint160` is modelled by its big-endian byte list, `util.Uint256`
  and opaque payloads by `Nat`;
* the underlying `client.WSClient` RPC surface is an environment `Env` of
  response functions; each `Client` method returns its outcome together
  with the list of RPC calls it issued, so "no network I/O" and
  "exactly one RPC" are statements about that trace;
* Go errors become the inductive `GoError`; a method that can `panic`
  returns a `MethodResult` with a dedicated `panicked` outcome;
* `uint32` / `int64` arithmetic wraps via explicit `% 2 ^ 32` / `% 2 ^ 64`.
-/

/-- Big-endian byte representation of a `util.Uint160` value
(`BytesBE` is the identity on this representation). -/
abbrev Uint160 : Type := List Nat

/-- A `util.Uint256` transaction hash, opaque to the client. -/
abbrev Uint256 : Type := Nat

/-- A `keys.PublicKey`; `Bytes()` is the identity on this representation. -/
abbrev PublicKey : Type := List Nat

/-- Go `PublicKey.Bytes()` from neo-go: serialized key bytes. -/
def PublicKey.bytesOf (k : PublicKey) : List Nat := k

/-- An element of the neo VM result stack (`stackitem.Item`), opaque. -/
abbrev StackItem : Type := Nat

/-- NeoFS-specific errors wrapped by `wrapNeoFSError` into `neofsError`. -/
inductive NeoFSErr where
  /-- Go `notHaltStateError{state, exception}`. -/
  | notHaltState (state exception : String)
  /-- Go `errEmptyInvocationScript`. -/
  | emptyInvocationScript
  /-- Go `fmt.Errorf("chain/client: unsupported parameter %v", value)`. -/
  | unsupportedParam (desc : String)
  deriving DecidableEq, Repr

/-- Go `error` values observable from the client package. -/
inductive GoError where
  /-- Go `ErrConnectionLost`. -/
  | connectionLost
  /-- Go `neofsError{err}` produced by `wrapNeoFSError`. -/
  | neofs (e : NeoFSErr)
  /-- An error coming back from the underlying RPC client, opaque. -/
  | transport (code : Nat)
  /-- Go `fmt.Errorf(msg + ": %w", e)`. -/
  | wrapped (msg : String) (e : GoError)
  deriving DecidableEq, Repr

/-- Go `HaltState` — returned if the invocation processed without panic. -/
def HaltState : String := "HALT"

/-- An `sc.Parameter` as built by `toStackParameter`: each constructor
fixes the `Type` tag together with the converted `Value`. -/
inductive Parameter where
  /-- Go `ByteArrayType` with a byte-slice value. -/
  | bytes (b : List Nat)
  /-- Go `IntegerType` with a `big.Int` value. -/
  | int (i : Int)
  /-- Go `StringType`. -/
  | str (s : String)
  /-- Go `ArrayType` with converted element parameters. -/
  | arr (elems : List Parameter)
  /-- Go `BoolType`. -/
  | boolean (b : Bool)
  deriving Repr

/-- A Go `interface{}` argument passed to `Invoke` / `TestInvoke`:
the closed set of cases of the `toStackParameter` type switch, plus
`unsupported` for every Go value outside that set (the `default` case). -/
inductive Arg where
  /-- Go `[]byte`. -/
  | bytes (b : List Nat)
  /-- Go `int`. -/
  | int (i : Int)
  /-- Go `int64`. -/
  | int64 (i : Int)
  /-- Go `uint64`. -/
  | uint64 (u : Nat)
  /-- Go `[][]byte`. -/
  | bytesArr (v : List (List Nat))
  /-- Go `string`. -/
  | str (s : String)
  /-- Go `util.Uint160`. -/
  | uint160 (u : Uint160)
  /-- Go `noderoles.Role`. -/
  | role (r : Nat)
  /-- Go `keys.PublicKeys`. -/
  | publicKeys (ks : List PublicKey)
  /-- Go `bool`. -/
  | boolean (b : Bool)
  /-- any other dynamic type: the `default` branch of the switch. -/
  | unsupported (desc : String)
  deriving Repr

/-- Termination measure for `toStackParameter`: the `keys.PublicKeys`
case re-enters through `[][]byte`, which re-enters through `[]byte`. -/
def Arg.weight : Arg → Nat
  | .publicKeys _ => 2
  | .bytesArr _ => 1
  | _ => 0

mutual

/-- Go `toStackParameter` — tries to resolve an `sc.Parameter` from the arg;
wraps any error to `neofsError`. -/
def toStackParameter : Arg → Except GoError Parameter
  | .bytes b => .ok (.bytes b)
  | .int i => .ok (.int i)
  | .int64 i => .ok (.int i)
  | .uint64 u => .ok (.int (Int.ofNat u))
  | .bytesArr v =>
    match toStackParameterElems v with
    | .error e => .error e
    | .ok arr => .ok (.arr arr)
  | .str s => .ok (.str s)
  | .uint160 u => .ok (.bytes u)
  | .role r => .ok (.int (Int.ofNat r))
  | .publicKeys ks => toStackParameter (.bytesArr (ks.map PublicKey.bytesOf))
  | .boolean b => .ok (.boolean b)
  | .unsupported d => .error (.neofs (.unsupportedParam d))
termination_by a => (a.weight, 0)
decreasing_by
  · exact Prod.Lex.left _ _ (by simp [Arg.weight])
  · exact Prod.Lex.left _ _ (by simp [Arg.weight])

/-- The `for` loop of the `[][]byte` case: converts each element through
the recursive `toStackParameter` call, stopping at the first error. -/
def toStackParameterElems : List (List Nat) → Except GoError (List Parameter)
  | [] => .ok []
  | b :: rest =>
    match toStackParameter (.bytes b) with
    | .error e => .error e
    | .ok elem =>
      match toStackParameterElems rest with
      | .error e => .error e
      | .ok arr => .ok (elem :: arr)
termination_by l => (0, l.length + 1)
decreasing_by
  · exact Prod.Lex.right _ (by simp)
  · exact Prod.Lex.right _ (by simp only [List.length_cons]; omega)

end

/-- The argument-conversion loop shared by `Invoke` and `TestInvoke`:
`for i := range args { param, err := toStackParameter(args[i]); if err
!= nil { return err }; params = append(params, param) }`. -/
def toStackParameterAll : List Arg → Except GoError (List Parameter)
  | [] => .ok []
  | a :: rest =>
    match toStackParameter a with
    | .error e => .error e
    | .ok p =>
      match toStackParameterAll rest with
      | .error e => .error e
      | .ok ps => .ok (p :: ps)

/-- The execution report returned by `WSClient.InvokeFunction` /
`InvokeScript` (`result.Invoke`): state, fault exception, script,
consumed gas and the result stack. -/
structure InvokeRes where
  state : String
  faultException : String
  script : List Nat
  gasConsumed : Int
  stack : List StackItem
  deriving Repr

/-- One execution record of an application log (`state.AppExecResult`):
only the VM state flags are inspected by the client. -/
structure AppExecution where
  vmState : Nat
  deriving Repr

/-- Go `GetApplicationLog` result: the list of executions. -/
structure AppLog where
  executions : List AppExecution
  deriving Repr

/-- Go `GetVersion` result: only `Protocol.MillisecondsPerBlock` is used. -/
structure NodeVersion where
  msPerBlock : Nat
  deriving Repr

/-- Go `vm.HaltState` flag value (neo VM state bit). -/
def vmHaltFlag : Nat := 1

/-- Go `VMState.HasFlag(vm.HaltState)`. -/
def AppExecution.hasHaltFlag (e : AppExecution) : Bool :=
  e.vmState &&& vmHaltFlag == vmHaltFlag

/-- Go `nativenames.Gas`. -/
def nativenamesGas : String := "GasToken"

/-- Go `nativenames.Designation`. -/
def nativenamesDesignation : String := "RoleManagement"

/-- Go `noderoles.NeoFSAlphabet`. -/
def noderolesNeoFSAlphabet : Nat := 16

/-- One RPC issued to the underlying `client.WSClient`, as recorded in a
network trace of the method. -/
inductive RpcCall where
  | invokeFunction (contract : Uint160) (method : String) (params : List Parameter)
  | signAndPushInvocationTx (script : List Nat) (sysFee : Int)
  | getNativeContractHash (name : String)
  | transferNEP17 (receiver : Uint160) (token : Uint160) (amount : Int)
  | getBlockCount
  | nep17BalanceOf (token : Uint160)
  | getCommittee
  | getApplicationLog (h : Uint256)
  | getTransactionHeight (h : Uint256)
  | getDesignatedByRole (r : Nat) (height : Nat)
  | getNetwork
  | getVersion
  | invokeScript (script : List Nat)
  deriving Repr

/-- Is this RPC a `SignAndPushInvocationTx` submission? -/
def RpcCall.isSignAndPush : RpcCall → Bool
  | .signAndPushInvocationTx _ _ => true
  | _ => false

/-- The underlying `client.WSClient` RPC surface, as response functions.
`getBlockCount` is indexed by how many `GetBlockCount` calls the current
method has already made, so the height-wait loop can see a changing
chain. -/
structure Env where
  invokeFunction : Uint160 → String → List Parameter → Except GoError InvokeRes
  signAndPushInvocationTx : List Nat → Int → Except GoError Uint256
  getNativeContractHash : String → Except GoError Uint160
  transferNEP17 : Uint160 → Uint160 → Int → Except GoError Uint256
  getBlockCount : Nat → Except GoError Nat
  nep17BalanceOf : Uint160 → Except GoError Int
  getCommittee : Except GoError (List PublicKey)
  getApplicationLog : Uint256 → Except GoError AppLog
  getTransactionHeight : Uint256 → Except GoError Nat
  getDesignatedByRole : Nat → Nat → Except GoError (List PublicKey)
  getNetwork : Except GoError Nat
  getVersion : Except GoError NodeVersion
  invokeScript : List Nat → Except GoError InvokeRes

/-- Outcome of a client method: normal return, error return, or a Go
`panic` escaping the method. -/
inductive MethodResult (α : Type) where
  | ok (a : α)
  | err (e : GoError)
  | panicked (e : GoError)
  deriving Repr

/-- Did the method panic? -/
def MethodResult.isPanic {α : Type} : MethodResult α → Bool
  | .panicked _ => true
  | _ => false

/-- The morph `Client` state visible to the embedded methods: the
lifecycle `inactive` flag, the account script hash, signer scopes
(opaque) and the configured wait-poll interval. -/
structure Client where
  inactive : Bool
  accScriptHash : Uint160
  signerScopes : Nat
  waitInterval : Nat

/-- Signed 64-bit wrap-around for Go `int64` arithmetic. -/
def wrap64 (x : Int) : Int := (x + 2 ^ 63) % 2 ^ 64 - 2 ^ 63

/-- Unsigned 32-bit wrap-around for Go `uint32` arithmetic. -/
def wrap32 (x : Nat) : Nat := x % 2 ^ 32

/-- Go `Client.Invoke` — invokes a contract method by sending a transaction
into the blockchain: inactive check, argument conversion, local
execution via `InvokeFunction`, HALT / non-empty-script checks, then
`SignAndPushInvocationTx` with `sysFee = resp.GasConsumed + int64(fee)`. -/
def Client.Invoke (c : Client) (env : Env) (contract : Uint160) (fee : Int)
    (method : String) (args : List Arg) : MethodResult Unit × List RpcCall :=
  if c.inactive then (.err .connectionLost, [])
  else
    match toStackParameterAll args with
    | .error e => (.err e, [])
    | .ok params =>
      match env.invokeFunction contract method params with
      | .error e => (.err e, [.invokeFunction contract method params])
      | .ok resp =>
        if resp.state ≠ HaltState then
          (.err (.neofs (.notHaltState resp.state resp.faultException)),
            [.invokeFunction contract method params])
        else if resp.script.length = 0 then
          (.err (.neofs .emptyInvocationScript),
            [.invokeFunction contract method params])
        else
          let sysFee := wrap64 (resp.gasConsumed + fee)
          match env.signAndPushInvocationTx resp.script sysFee with
          | .error e =>
            (.err e,
              [.invokeFunction contract method params,
               .signAndPushInvocationTx resp.script sysFee])
          | .ok _ =>
            (.ok (),
              [.invokeFunction contract method params,
               .signAndPushInvocationTx resp.script sysFee])

/-- Go `Client.TestInvoke` — invokes a contract method locally in the neo-go
node and returns the result stack. -/
def Client.TestInvoke (c : Client) (env : Env) (contract : Uint160)
    (method : String) (args : List Arg) :
    MethodResult (List StackItem) × List RpcCall :=
  if c.inactive then (.err .connectionLost, [])
  else
    match toStackParameterAll args with
    | .error e => (.err e, [])
    | .ok params =>
      match env.invokeFunction contract method params with
      | .error e => (.err e, [.invokeFunction contract method params])
      | .ok val =>
        if val.state ≠ HaltState then
          (.err (.neofs (.notHaltState val.state val.faultException)),
            [.invokeFunction contract method params])
        else
          (.ok val.stack, [.invokeFunction contract method params])

/-- Go `Client.TransferGas` — transfers GAS to the receiver from the local
wallet: native GAS hash lookup, then `TransferNEP17`. -/
def Client.TransferGas (c : Client) (env : Env) (receiver : Uint160)
    (amount : Int) : MethodResult Unit × List RpcCall :=
  if c.inactive then (.err .connectionLost, [])
  else
    match env.getNativeContractHash nativenamesGas with
    | .error e => (.err e, [.getNativeContractHash nativenamesGas])
    | .ok gas =>
      match env.transferNEP17 receiver gas amount with
      | .error e =>
        (.err e,
          [.getNativeContractHash nativenamesGas,
           .transferNEP17 receiver gas amount])
      | .ok _ =>
        (.ok (),
          [.getNativeContractHash nativenamesGas,
           .transferNEP17 receiver gas amount])

/-- The `for` loop of `Client.Wait`: at iteration `j` it checks
`ctx.Done()`, queries the height (the `j + 1`-th `GetBlockCount` call of
this `Wait`), returns `nil` on a query error, returns `nil` once
`newHeight >= height+n` (uint32 addition), else sleeps and loops.
`fuel` bounds the number of iterations we unroll; `none` means the loop
was still running when the fuel ran out. -/
def waitLoop (env : Env) (ctxDone : Nat → Bool) (height n : Nat) :
    Nat → Nat → Option (MethodResult Unit) × List RpcCall
  | 0, _ => (none, [])
  | fuel + 1, j =>
    if ctxDone j then (some (.ok ()), [])
    else
      match env.getBlockCount (j + 1) with
      | .error _ => (some (.ok ()), [.getBlockCount])
      | .ok newHeight =>
        if wrap32 (height + n) ≤ newHeight then
          (some (.ok ()), [.getBlockCount])
        else
          let (r, t) := waitLoop env ctxDone height n fuel (j + 1)
          (r, .getBlockCount :: t)

/-- Go `Client.Wait` — blocks until `n` new blocks appear in the chain.
The initial height query degrades to `return nil` on error (after
logging); the loop then polls as in `waitLoop`. `ctxDone j` models
`ctx.Done()` being selectable at loop iteration `j`. -/
def Client.Wait (c : Client) (env : Env) (ctxDone : Nat → Bool) (n : Nat)
    (fuel : Nat) : Option (MethodResult Unit) × List RpcCall :=
  if c.inactive then (some (.err .connectionLost), [])
  else
    match env.getBlockCount 0 with
    | .error _ => (some (.ok ()), [.getBlockCount])
    | .ok height =>
      let (r, t) := waitLoop env ctxDone height n fuel 0
      (r, .getBlockCount :: t)

/-- Go `Client.GasBalance` — returns the GAS amount in the client wallet:
native GAS hash lookup, then `NEP17BalanceOf`. -/
def Client.GasBalance (c : Client) (env : Env) :
    MethodResult Int × List RpcCall :=
  if c.inactive then (.err .connectionLost, [])
  else
    match env.getNativeContractHash nativenamesGas with
    | .error e => (.err e, [.getNativeContractHash nativenamesGas])
    | .ok gas =>
      match env.nep17BalanceOf gas with
      | .error e =>
        (.err e, [.getNativeContractHash nativenamesGas, .nep17BalanceOf gas])
      | .ok res =>
        (.ok res, [.getNativeContractHash nativenamesGas, .nep17BalanceOf gas])

/-- Go `Client.Committee` — returns the chain committee keys. -/
def Client.Committee (c : Client) (env : Env) :
    MethodResult (List PublicKey) × List RpcCall :=
  if c.inactive then (.err .connectionLost, [])
  else
    match env.getCommittee with
    | .error e => (.err e, [.getCommittee])
    | .ok res => (.ok res, [.getCommittee])

/-- Go `Client.TxHalt` — whether the transaction executed successfully:
`len(aer.Executions) > 0 && aer.Executions[0].VMState.HasFlag(HaltState)`. -/
def Client.TxHalt (c : Client) (env : Env) (h : Uint256) :
    MethodResult Bool × List RpcCall :=
  if c.inactive then (.err .connectionLost, [])
  else
    match env.getApplicationLog h with
    | .error e => (.err e, [.getApplicationLog h])
    | .ok aer =>
      (.ok (decide (0 < aer.executions.length) &&
        (aer.executions.headD { vmState := 0 }).hasHaltFlag),
        [.getApplicationLog h])

/-- Go `Client.TxHeight` — the height at which the transaction was persisted. -/
def Client.TxHeight (c : Client) (env : Env) (h : Uint256) :
    MethodResult Nat × List RpcCall :=
  if c.inactive then (.err .connectionLost, [])
  else
    match env.getTransactionHeight h with
    | .error e => (.err e, [.getTransactionHeight h])
    | .ok res => (.ok res, [.getTransactionHeight h])

/-- Go `Client.roleList` — helper: chain height, then designated-role query
at that height. -/
def Client.roleList (_c : Client) (env : Env) (r : Nat) :
    Except GoError (List PublicKey) × List RpcCall :=
  match env.getBlockCount 0 with
  | .error e =>
    (.error (.wrapped "cant get chain height" e), [.getBlockCount])
  | .ok height =>
    match env.getDesignatedByRole r height with
    | .error e => (.error e, [.getBlockCount, .getDesignatedByRole r height])
    | .ok ks => (.ok ks, [.getBlockCount, .getDesignatedByRole r height])

/-- Go `Client.NeoFSAlphabetList` — keys stored in the NeoFS Alphabet role. -/
def Client.NeoFSAlphabetList (c : Client) (env : Env) :
    MethodResult (List PublicKey) × List RpcCall :=
  if c.inactive then (.err .connectionLost, [])
  else
    match c.roleList env noderolesNeoFSAlphabet with
    | (.error e, t) =>
      (.err (.wrapped "cant get alphabet nodes role list" e), t)
    | (.ok list, t) => (.ok list, t)

/-- Go `Client.GetDesignateHash` — hash of the native RoleManagement
contract. -/
def Client.GetDesignateHash (c : Client) (env : Env) :
    MethodResult Uint160 × List RpcCall :=
  if c.inactive then (.err .connectionLost, [])
  else
    match env.getNativeContractHash nativenamesDesignation with
    | .error e => (.err e, [.getNativeContractHash nativenamesDesignation])
    | .ok res => (.ok res, [.getNativeContractHash nativenamesDesignation])

/-- Go `Client.MagicNumber` — the magic number of the network. A query
error makes the method panic instead of returning the error. -/
def Client.MagicNumber (c : Client) (env : Env) :
    MethodResult Nat × List RpcCall :=
  if c.inactive then (.err .connectionLost, [])
  else
    match env.getNetwork with
    | .error e => (.panicked e, [.getNetwork])
    | .ok mNum => (.ok mNum, [.getNetwork])

/-- Go `Client.BlockCount` — block count of the network. -/
def Client.BlockCount (c : Client) (env : Env) :
    MethodResult Nat × List RpcCall :=
  if c.inactive then (.err .connectionLost, [])
  else
    match env.getBlockCount 0 with
    | .error e => (.err e, [.getBlockCount])
    | .ok res => (.ok res, [.getBlockCount])

/-- Go `Client.MsPerBlock` — the MillisecondsPerBlock network parameter. -/
def Client.MsPerBlock (c : Client) (env : Env) :
    MethodResult Int × List RpcCall :=
  if c.inactive then (.err .connectionLost, [])
  else
    match env.getVersion with
    | .error e => (.err (.wrapped "getVersion" e), [.getVersion])
    | .ok v => (.ok (Int.ofNat v.msPerBlock), [.getVersion])

/-- Go `Client.IsValidScript` — whether the invocation script executes with
HALT state. -/
def Client.IsValidScript (c : Client) (env : Env) (script : List Nat) :
    MethodResult Bool × List RpcCall :=
  if c.inactive then (.err .connectionLost, [])
  else
    match env.invokeScript script with
    | .error e => (.err (.wrapped "invokeScript" e), [.invokeScript script])
    | .ok result => (.ok (result.state == HaltState), [.invokeScript script])

/-- Events on the cache read/write mutex `cache.m`, recorded so that the
lock discipline of each accessor is visible in the model. -/
inductive LockEvent where
  | rlock
  | runlock
  | lock
  | unlock
  deriving DecidableEq, Repr

/-- The fact cache of the client (Go type `cache`): the name-service
contract hash, the group public key, and the bounded LRU mapping from
transaction hash to block height (represented by its entry list). -/
structure cache where
  nnsHash : Option Uint160
  gKey : Option PublicKey
  txHeights : List (Uint256 × Nat)

/-- Method `cache.nns` — reads the cached NNS hash under the shared lock. -/
def cache.nns (c : cache) : Option Uint160 × List LockEvent :=
  (c.nnsHash, [.rlock, .runlock])

/-- Method `cache.setNNSHash` — stores the NNS hash under the exclusive
lock. -/
def cache.setNNSHash (c : cache) (h : Uint160) : cache × List LockEvent :=
  ({ c with nnsHash := some h }, [.lock, .unlock])

/-- Method `cache.groupKey` — reads the cached group key under the
shared lock. -/
def cache.groupKey (c : cache) : Option PublicKey × List LockEvent :=
  (c.gKey, [.rlock, .runlock])

/-- Method `cache.setGroupKey` — stores the group key under the
exclusive lock. -/
def cache.setGroupKey (c : cache) (k : PublicKey) : cache × List LockEvent :=
  ({ c with gKey := some k }, [.lock, .unlock])

/-- Method `cache.invalidate` — under one exclusive lock acquisition
sets `nnsHash = nil`, `gKey = nil` and purges the tx-height LRU. -/
def cache.invalidate (_c : cache) : cache × List LockEvent :=
  ({ nnsHash := none, gKey := none, txHeights := [] }, [.lock, .unlock])

/-- Lifecycle bookkeeping around `Client.inactiveMode`: the terminal
flag, how many times `close(c.notifications)` has been executed, how
many times `cfg.inactiveModeCb` has fired, and whether a callback is
configured. -/
structure Lifecycle where
  inactive : Bool
  channelCloseCount : Nat
  cbCount : Nat
  hasCb : Bool
  deriving DecidableEq, Repr

/-- Method `Client.inactiveMode` — under the exclusive switch lock:
closes the notification channel, sets the terminal flag, and fires
`cfg.inactiveModeCb` if it is not nil. -/
def Lifecycle.inactiveMode (s : Lifecycle) : Lifecycle :=
  { s with
    channelCloseCount := s.channelCloseCount + 1
    inactive := true
    cbCount := if s.hasCb then s.cbCount + 1 else s.cbCount }

/-- Modelled from the spec: the only caller of `inactiveMode` — the
connection-switch path of the Connection Guardian, which is not under
src/ — drives the Lifecycle State Machine to Inactive only when the
endpoint pool is exhausted and the client is still Active, all under
the same exclusive switch lock (spec §4.2, §8 idempotent terminal
state). -/
def terminalTransition (s : Lifecycle) : Lifecycle :=
  if s.inactive then s else s.inactiveMode

/-- A fresh Active lifecycle state with a configured callback flag. -/
def Lifecycle.fresh (hasCb : Bool) : Lifecycle :=
  { inactive := false, channelCloseCount := 0, cbCount := 0, hasCb := hasCb }

/-- An active client fixture. -/
def clientActive : Client :=
  { inactive := false, accScriptHash := [1, 2], signerScopes := 0,
    waitInterval := 1 }

/-- An inactive (terminal) client fixture. -/
def clientInactive : Client :=
  { clientActive with inactive := true }

/-- A benign environment fixture: reads succeed, invocations fail with
a transport error, `GetNetwork` fails with a transport error. -/
def envBase : Env :=
  { invokeFunction := fun _ _ _ => .error (.transport 0)
    signAndPushInvocationTx := fun _ _ => .error (.transport 1)
    getNativeContractHash := fun _ => .ok [7]
    transferNEP17 := fun _ _ _ => .ok 11
    getBlockCount := fun _ => .ok 10
    nep17BalanceOf := fun _ => .ok 42
    getCommittee := .ok []
    getApplicationLog := fun _ => .ok { executions := [{ vmState := 1 }] }
    getTransactionHeight := fun _ => .ok 5
    getDesignatedByRole := fun _ _ => .ok []
    getNetwork := .error (.transport 3)
    getVersion := .ok { msPerBlock := 1000 }
    invokeScript := fun _ =>
      .ok { state := "HALT", faultException := "", script := [1],
            gasConsumed := 2, stack := [] } }

/-- An execution report with a FAULT state. -/
def respFault : InvokeRes :=
  { state := "FAULT", faultException := "boom", script := [1],
    gasConsumed := 3, stack := [] }

/-- Environment whose local execution reports a FAULT state. -/
def envFault : Env :=
  { envBase with invokeFunction := fun _ _ _ => .ok respFault }

/-- An execution report with a HALT state and a non-empty script. -/
def respHalt : InvokeRes :=
  { state := "HALT", faultException := "", script := [9],
    gasConsumed := 3, stack := [] }

/-- Environment whose local execution halts and whose submission
succeeds. -/
def envHalt : Env :=
  { envBase with
    invokeFunction := fun _ _ _ => .ok respHalt
    signAndPushInvocationTx := fun _ _ => .ok 99 }

/-- Environment for the height wait: initial height 5, the first
per-tick height query fails, any later query would report 100. -/
def envTickErr : Env :=
  { envBase with
    getBlockCount := fun i =>
      if i = 0 then .ok 5
      else if i = 1 then .error (.transport 7)
      else .ok 100 }

/-! ## Helper lemmas -/

/-- Element conversion of a `[][]byte` argument never fails: every
element goes through the `[]byte` case of `toStackParameter`. -/
theorem toStackParameterElems_ok (l : List (List Nat)) :
    toStackParameterElems l = .ok (l.map Parameter.bytes) := by
  induction l with
  | nil => simp [toStackParameterElems]
  | cons b rest ih => simp [toStackParameterElems, toStackParameter, ih]

/-- The only error `toStackParameter` can produce is the wrapped
unsupported-parameter error of the `default` branch. -/
theorem toStackParameter_error_unsupported (a : Arg) (e : GoError)
    (h : toStackParameter a = .error e) :
    ∃ d, e = .neofs (.unsupportedParam d) := by
  cases a with
  | bytesArr v => simp [toStackParameter, toStackParameterElems_ok v] at h
  | publicKeys ks =>
    rw [toStackParameter] at h
    simp [toStackParameter,
      toStackParameterElems_ok (ks.map PublicKey.bytesOf)] at h
  | unsupported d =>
    simp [toStackParameter] at h
    exact ⟨d, h.symm⟩
  | bytes b => simp [toStackParameter] at h
  | int i => simp [toStackParameter] at h
  | int64 i => simp [toStackParameter] at h
  | uint64 u => simp [toStackParameter] at h
  | str s => simp [toStackParameter] at h
  | uint160 u => simp [toStackParameter] at h
  | role r => simp [toStackParameter] at h
  | boolean b => simp [toStackParameter] at h

/-- If some argument fails conversion, the conversion loop fails with
an unsupported-parameter error (the one of the first failing argument). -/
theorem toStackParameterAll_error_of_mem (args : List Arg)
    (hbad : ∃ a ∈ args, ∃ e, toStackParameter a = .error e) :
    ∃ d, toStackParameterAll args = .error (.neofs (.unsupportedParam d)) := by
  induction args with
  | nil => simp at hbad
  | cons a rest ih =>
    cases ha : toStackParameter a with
    | error e =>
      obtain ⟨d, rfl⟩ := toStackParameter_error_unsupported a e ha
      exact ⟨d, by simp [toStackParameterAll, ha]⟩
    | ok p =>
      obtain ⟨b, hb, e, he⟩ := hbad
      rcases List.mem_cons.mp hb with rfl | hbrest
      · rw [ha] at he; cases he
      · obtain ⟨d, hd⟩ := ih ⟨b, hbrest, e, he⟩
        exact ⟨d, by simp [toStackParameterAll, ha, hd]⟩

/-! ## C1 — fault-state invoke returns the fault error, submits nothing -/

/-- C1: for every state-changing `Client.Invoke` where the execution
report has a state other than HALT, the call returns the wrapped
`notHaltStateError` carrying the reported state and fault text, and the
network trace contains no `SignAndPushInvocationTx` submission. -/
theorem invoke_fault_state_returns_error_and_submits_nothing
    (c : Client) (env : Env) (contract : Uint160) (fee : Int)
    (method : String) (args : List Arg) (params : List Parameter)
    (resp : InvokeRes)
    (hact : c.inactive = false)
    (hconv : toStackParameterAll args = .ok params)
    (hresp : env.invokeFunction contract method params = .ok resp)
    (hstate : resp.state ≠ HaltState) :
    (c.Invoke env contract fee method args).1 =
      .err (.neofs (.notHaltState resp.state resp.faultException)) ∧
    ∀ call ∈ (c.Invoke env contract fee method args).2,
      call.isSignAndPush = false := by
  have hcompute : c.Invoke env contract fee method args =
      (.err (.neofs (.notHaltState resp.state resp.faultException)),
        [.invokeFunction contract method params]) := by
    unfold Client.Invoke
    simp [hact, hconv, hresp, hstate]
  refine ⟨by rw [hcompute], ?_⟩
  rw [hcompute]
  intro call hcall
  simp at hcall
  simp [hcall, RpcCall.isSignAndPush]

/-- Witness for C1 at a concrete FAULT environment. -/
theorem invoke_fault_state_witness :
    (clientActive.Invoke envFault [3] 7 "mtd" []).1 =
      .err (.neofs (.notHaltState respFault.state respFault.faultException)) ∧
    ∀ call ∈ (clientActive.Invoke envFault [3] 7 "mtd" []).2,
      call.isSignAndPush = false :=
  invoke_fault_state_returns_error_and_submits_nothing
    clientActive envFault [3] 7 "mtd" [] [] respFault
    rfl rfl rfl (by decide)

/-! ## C2 — the terminal flag short-circuits every operation -/

/-- C2: once the inactive flag is set, every public network-touching
operation returns the `ErrConnectionLost` sentinel with an empty network
trace (no network I/O at all). -/
theorem inactive_flag_all_operations_conn_lost (c : Client) (env : Env)
    (hina : c.inactive = true) :
    (∀ contract fee method args,
      c.Invoke env contract fee method args = (.err .connectionLost, [])) ∧
    (∀ contract method args,
      c.TestInvoke env contract method args = (.err .connectionLost, [])) ∧
    (∀ receiver amount,
      c.TransferGas env receiver amount = (.err .connectionLost, [])) ∧
    (∀ ctxDone n fuel,
      c.Wait env ctxDone n fuel = (some (.err .connectionLost), [])) ∧
    c.GasBalance env = (.err .connectionLost, []) ∧
    c.Committee env = (.err .connectionLost, []) ∧
    (∀ h, c.TxHalt env h = (.err .connectionLost, [])) ∧
    (∀ h, c.TxHeight env h = (.err .connectionLost, [])) ∧
    c.BlockCount env = (.err .connectionLost, []) ∧
    c.MsPerBlock env = (.err .connectionLost, []) ∧
    (∀ s, c.IsValidScript env s = (.err .connectionLost, [])) ∧
    c.NeoFSAlphabetList env = (.err .connectionLost, []) ∧
    c.GetDesignateHash env = (.err .connectionLost, []) ∧
    c.MagicNumber env = (.err .connectionLost, []) := by
  refine ⟨?_, ?_, ?_, ?_, ?_, ?_, ?_, ?_, ?_, ?_, ?_, ?_, ?_, ?_⟩ <;>
    simp [Client.Invoke, Client.TestInvoke, Client.TransferGas,
      Client.Wait, Client.GasBalance, Client.Committee, Client.TxHalt,
      Client.TxHeight, Client.BlockCount, Client.MsPerBlock,
      Client.IsValidScript, Client.NeoFSAlphabetList,
      Client.GetDesignateHash, Client.MagicNumber, hina]

/-- Witness for C2 at the concrete inactive client. -/
theorem inactive_flag_witness :
    (∀ contract fee method args,
      clientInactive.Invoke envBase contract fee method args =
        (.err .connectionLost, [])) ∧
    (∀ contract method args,
      clientInactive.TestInvoke envBase contract method args =
        (.err .connectionLost, [])) ∧
    (∀ receiver amount,
      clientInactive.TransferGas envBase receiver amount =
        (.err .connectionLost, [])) ∧
    (∀ ctxDone n fuel,
      clientInactive.Wait envBase ctxDone n fuel =
        (some (.err .connectionLost), [])) ∧
    clientInactive.GasBalance envBase = (.err .connectionLost, []) ∧
    clientInactive.Committee envBase = (.err .connectionLost, []) ∧
    (∀ h, clientInactive.TxHalt envBase h = (.err .connectionLost, [])) ∧
    (∀ h, clientInactive.TxHeight envBase h = (.err .connectionLost, [])) ∧
    clientInactive.BlockCount envBase = (.err .connectionLost, []) ∧
    clientInactive.MsPerBlock envBase = (.err .connectionLost, []) ∧
    (∀ s, clientInactive.IsValidScript envBase s =
      (.err .connectionLost, [])) ∧
    clientInactive.NeoFSAlphabetList envBase = (.err .connectionLost, []) ∧
    clientInactive.GetDesignateHash envBase = (.err .connectionLost, []) ∧
    clientInactive.MagicNumber envBase = (.err .connectionLost, []) :=
  inactive_flag_all_operations_conn_lost clientInactive envBase rfl

/-! ## C3 — error policy of the height-polling wait -/

/-- The wait loop never produces an error result: every outcome it
returns (before fuel exhaustion) is nil. -/
theorem waitLoop_result_ok (env : Env) (ctxDone : Nat → Bool)
    (height n : Nat) :
    ∀ fuel j, (waitLoop env ctxDone height n fuel j).1 = none ∨
      (waitLoop env ctxDone height n fuel j).1 = some (.ok ()) := by
  intro fuel
  induction fuel with
  | zero => intro j; left; simp [waitLoop]
  | succ f ih =>
    intro j
    rw [waitLoop]
    by_cases hd : ctxDone j
    · simp [hd]
    · cases hgb : env.getBlockCount (j + 1) with
      | error e => simp [hd, hgb]
      | ok newHeight =>
        by_cases hh : wrap32 (height + n) ≤ newHeight
        · simp [hd, hgb, hh]
        · cases hw : waitLoop env ctxDone height n f (j + 1) with
          | mk r t =>
            have hr := ih (j + 1)
            rw [hw] at hr
            simp [hd, hgb, hh, hw]
            exact hr

/-- Counterexample to C3 as stated: with initial height 5, a failing
first per-tick height query and a would-succeed second one, `Wait`
returns nil right after the failing tick — exactly two height queries,
no retry on the next tick and no surfaced error. -/
theorem wait_per_tick_error_stops_counterexample :
    clientActive.Wait envTickErr (fun _ => false) 1 5 =
      (some (.ok ()), [.getBlockCount, .getBlockCount]) := by
  rfl

/-- C3 amended: the height-polling wait surfaces no height-query error
at all — any query failure (initial or per-tick) degrades to an
immediate nil return; an active `Wait` can only return nil. -/
theorem wait_suppresses_every_query_error (c : Client) (env : Env)
    (ctxDone : Nat → Bool) (n fuel : Nat) (hact : c.inactive = false) :
    (c.Wait env ctxDone n fuel).1 = none ∨
    (c.Wait env ctxDone n fuel).1 = some (.ok ()) := by
  unfold Client.Wait
  cases h0 : env.getBlockCount 0 with
  | error e => simp [hact, h0]
  | ok height =>
    cases hw : waitLoop env ctxDone height n fuel 0 with
    | mk r t =>
      have hr := waitLoop_result_ok env ctxDone height n fuel 0
      rw [hw] at hr
      simp [hact, h0, hw]
      exact hr

/-- Witness for the amended C3 at a concrete environment. -/
theorem wait_suppresses_every_query_error_witness :
    (clientActive.Wait envBase (fun _ => false) 2 3).1 = none ∨
    (clientActive.Wait envBase (fun _ => false) 2 3).1 = some (.ok ()) :=
  wait_suppresses_every_query_error clientActive envBase
    (fun _ => false) 2 3 rfl

/-! ## C4 — RPC counts of the auxiliary read methods -/

/-- Counterexample to C4 as stated: `GasBalance` and `NeoFSAlphabetList`
issue two underlying RPCs inside one lock hold (hash lookup plus
balance query; height query plus role query), not exactly one. -/
theorem aux_read_two_rpcs_counterexample :
    (clientActive.GasBalance envBase).2.length = 2 ∧
    (clientActive.NeoFSAlphabetList envBase).2.length = 2 :=
  ⟨rfl, rfl⟩

/-- C4 amended: seven of the auxiliary read methods (block count,
designate-hash lookup, committee, ms-per-block, transaction height,
transaction halt status, script validity) issue exactly one underlying
RPC between lock acquisition and release; the wallet balance and the
designated-role list issue two chained RPCs (the second skipped when
the first fails). -/
theorem aux_read_methods_rpc_counts (c : Client) (env : Env)
    (h : Uint256) (s : List Nat) (hact : c.inactive = false) :
    (c.BlockCount env).2.length = 1 ∧
    (c.GetDesignateHash env).2.length = 1 ∧
    (c.Committee env).2.length = 1 ∧
    (c.MsPerBlock env).2.length = 1 ∧
    (c.TxHeight env h).2.length = 1 ∧
    (c.TxHalt env h).2.length = 1 ∧
    (c.IsValidScript env s).2.length = 1 ∧
    (c.GasBalance env).2.length =
      (match env.getNativeContractHash nativenamesGas with
        | .error _ => 1
        | .ok _ => 2) ∧
    (c.NeoFSAlphabetList env).2.length =
      (match env.getBlockCount 0 with
        | .error _ => 1
        | .ok _ => 2) := by
  refine ⟨?_, ?_, ?_, ?_, ?_, ?_, ?_, ?_, ?_⟩
  · cases hx : env.getBlockCount 0 <;>
      simp [Client.BlockCount, hact, hx]
  · cases hx : env.getNativeContractHash nativenamesDesignation <;>
      simp [Client.GetDesignateHash, hact, hx]
  · cases hx : env.getCommittee <;>
      simp [Client.Committee, hact, hx]
  · cases hx : env.getVersion <;>
      simp [Client.MsPerBlock, hact, hx]
  · cases hx : env.getTransactionHeight h <;>
      simp [Client.TxHeight, hact, hx]
  · cases hx : env.getApplicationLog h <;>
      simp [Client.TxHalt, hact, hx]
  · cases hx : env.invokeScript s <;>
      simp [Client.IsValidScript, hact, hx]
  · cases hx : env.getNativeContractHash nativenamesGas with
    | error e => simp [Client.GasBalance, hact, hx]
    | ok gas =>
      cases hy : env.nep17BalanceOf gas <;>
        simp [Client.GasBalance, hact, hx, hy]
  · cases hx : env.getBlockCount 0 with
    | error e =>
      simp [Client.NeoFSAlphabetList, Client.roleList, hact, hx]
    | ok height =>
      cases hy : env.getDesignatedByRole noderolesNeoFSAlphabet height <;>
        simp [Client.NeoFSAlphabetList, Client.roleList, hact, hx, hy]

/-- Witness for the amended C4 at a concrete environment. -/
theorem aux_read_methods_rpc_counts_witness :
    (clientActive.BlockCount envBase).2.length = 1 ∧
    (clientActive.GetDesignateHash envBase).2.length = 1 ∧
    (clientActive.Committee envBase).2.length = 1 ∧
    (clientActive.MsPerBlock envBase).2.length = 1 ∧
    (clientActive.TxHeight envBase 4).2.length = 1 ∧
    (clientActive.TxHalt envBase 4).2.length = 1 ∧
    (clientActive.IsValidScript envBase [2]).2.length = 1 ∧
    (clientActive.GasBalance envBase).2.length =
      (match envBase.getNativeContractHash nativenamesGas with
        | .error _ => 1
        | .ok _ => 2) ∧
    (clientActive.NeoFSAlphabetList envBase).2.length =
      (match envBase.getBlockCount 0 with
        | .error _ => 1
        | .ok _ => 2) :=
  aux_read_methods_rpc_counts clientActive envBase 4 [2] rfl

/-! ## C5 — cache invalidation is total and atomic -/

/-- C5: `invalidate` clears the NNS hash, the group key and the bounded
tx-height mapping in one state transition whose lock trace is a single
exclusive acquisition; afterwards every fact accessor returns the
absent marker. The read accessors take the shared side of the same
mutex, so no interleaved reader can observe a partially cleared mix. -/
theorem cache_invalidate_clears_all_under_one_lock (c : cache) :
    (c.invalidate).2 = [.lock, .unlock] ∧
    (c.invalidate).2.count .lock = 1 ∧
    ((c.invalidate).1.nns).1 = none ∧
    ((c.invalidate).1.groupKey).1 = none ∧
    (c.invalidate).1.txHeights = [] ∧
    (c.nns).2 = [.rlock, .runlock] ∧
    (c.groupKey).2 = [.rlock, .runlock] :=
  ⟨rfl, rfl, rfl, rfl, rfl, rfl, rfl⟩

/-! ## C6 — unsupported arguments fail before any network I/O -/

/-- C6: if any argument of `Invoke` or `TestInvoke` fails conversion
(its dynamic kind is outside the closed supported set, anywhere in the
one-level-nested array tree), the call returns the wrapped
unsupported-parameter invocation error and its network trace is empty. -/
theorem unsupported_arg_fails_before_network (c : Client) (env : Env)
    (contract : Uint160) (fee : Int) (method : String) (args : List Arg)
    (hact : c.inactive = false)
    (hbad : ∃ a ∈ args, ∃ e, toStackParameter a = .error e) :
    (∃ d, (c.Invoke env contract fee method args).1 =
      .err (.neofs (.unsupportedParam d))) ∧
    (c.Invoke env contract fee method args).2 = [] ∧
    (∃ d, (c.TestInvoke env contract method args).1 =
      .err (.neofs (.unsupportedParam d))) ∧
    (c.TestInvoke env contract method args).2 = [] := by
  obtain ⟨d, hd⟩ := toStackParameterAll_error_of_mem args hbad
  exact ⟨⟨d, by simp [Client.Invoke, hact, hd]⟩,
    by simp [Client.Invoke, hact, hd],
    ⟨d, by simp [Client.TestInvoke, hact, hd]⟩,
    by simp [Client.TestInvoke, hact, hd]⟩

/-- Witness for C6: a float-kinded argument after a supported one. -/
theorem unsupported_arg_witness :
    (∃ d, (clientActive.Invoke envBase [3] 0 "mtd"
      [.int 1, .unsupported "float64"]).1 =
      .err (.neofs (.unsupportedParam d))) ∧
    (clientActive.Invoke envBase [3] 0 "mtd"
      [.int 1, .unsupported "float64"]).2 = [] ∧
    (∃ d, (clientActive.TestInvoke envBase [3] "mtd"
      [.int 1, .unsupported "float64"]).1 =
      .err (.neofs (.unsupportedParam d))) ∧
    (clientActive.TestInvoke envBase [3] "mtd"
      [.int 1, .unsupported "float64"]).2 = [] :=
  unsupported_arg_fails_before_network clientActive envBase [3] 0 "mtd"
    [.int 1, .unsupported "float64"] rfl
    ⟨.unsupported "float64", by simp,
      ⟨.neofs (.unsupportedParam "float64"), by simp [toStackParameter]⟩⟩

/-! ## C7 — successful invoke submits with the exact system fee -/

/-- An in-range signed sum is unchanged by 64-bit wrap-around. -/
theorem wrap64_eq_of_range (x : Int) (hlo : -(2 ^ 63) ≤ x)
    (hhi : x < 2 ^ 63) : wrap64 x = x := by
  unfold wrap64
  have h1 : 0 ≤ x + 2 ^ 63 := by omega
  have h2 : x + 2 ^ 63 < 2 ^ 64 := by omega
  rw [Int.emod_eq_of_lt h1 h2]
  omega

/-- C7: on a HALT report with a non-empty script, `Invoke` submits the
returned script with system fee exactly `GasConsumed + fee` (their sum
being in the signed 64-bit range) and returns nil; the trace ends at
the submission — no confirmation-wait RPC follows. -/
theorem invoke_halt_submits_with_exact_fee (c : Client) (env : Env)
    (contract : Uint160) (fee : Int) (method : String) (args : List Arg)
    (params : List Parameter) (resp : InvokeRes) (tx : Uint256)
    (hact : c.inactive = false)
    (hconv : toStackParameterAll args = .ok params)
    (hresp : env.invokeFunction contract method params = .ok resp)
    (hstate : resp.state = HaltState)
    (hscript : resp.script.length ≠ 0)
    (hlo : -(2 ^ 63) ≤ resp.gasConsumed + fee)
    (hhi : resp.gasConsumed + fee < 2 ^ 63)
    (hpush : env.signAndPushInvocationTx resp.script
      (resp.gasConsumed + fee) = .ok tx) :
    c.Invoke env contract fee method args =
      (.ok (), [.invokeFunction contract method params,
        .signAndPushInvocationTx resp.script (resp.gasConsumed + fee)]) := by
  unfold Client.Invoke
  simp [hact, hconv, hresp, hstate, hscript,
    wrap64_eq_of_range _ hlo hhi, hpush]

/-- Witness for C7 at the concrete HALT environment. -/
theorem invoke_halt_exact_fee_witness :
    clientActive.Invoke envHalt [3] 2 "mtd" [] =
      (.ok (), [.invokeFunction [3] "mtd" [],
        .signAndPushInvocationTx respHalt.script
          (respHalt.gasConsumed + 2)]) :=
  invoke_halt_submits_with_exact_fee clientActive envHalt [3] 2 "mtd" []
    [] respHalt 99 rfl rfl rfl rfl (by decide) (by decide) (by decide) rfl

/-! ## C8 — wait with an already-cancelled context -/

/-- C8: calling `Wait` with a context that is already cancelled returns
immediately with nil and issues at most one height query (the initial
one, which precedes the first cancellation check). -/
theorem wait_cancelled_ctx_immediate (c : Client) (env : Env)
    (n fuel : Nat) (hact : c.inactive = false) (hfuel : 1 ≤ fuel) :
    (c.Wait env (fun _ => true) n fuel).1 = some (.ok ()) ∧
    (c.Wait env (fun _ => true) n fuel).2.length ≤ 1 := by
  obtain ⟨f, rfl⟩ : ∃ f, fuel = f + 1 := ⟨fuel - 1, by omega⟩
  unfold Client.Wait
  cases h0 : env.getBlockCount 0 with
  | error e => simp [hact, h0]
  | ok height => simp [hact, h0, waitLoop]

/-- Witness for C8 at a concrete environment with fuel 1. -/
theorem wait_cancelled_ctx_witness :
    (clientActive.Wait envBase (fun _ => true) 3 1).1 = some (.ok ()) ∧
    (clientActive.Wait envBase (fun _ => true) 3 1).2.length ≤ 1 :=
  wait_cancelled_ctx_immediate clientActive envBase 3 1 rfl (by decide)

/-! ## C9 — the terminal transition is idempotent -/

/-- An already-inactive lifecycle state is a fixed point of the guarded
terminal transition. -/
theorem terminalTransition_inactive_fixed (s : Lifecycle)
    (h : s.inactive = true) : terminalTransition s = s := by
  simp [terminalTransition, h]

/-- Iterating the guarded terminal transition from an inactive state
changes nothing. -/
theorem terminalTransition_iter_fixed (s : Lifecycle)
    (h : s.inactive = true) : ∀ k, terminalTransition^[k] s = s := by
  intro k
  induction k with
  | zero => rfl
  | succ j ih =>
    rw [Function.iterate_succ_apply, terminalTransition_inactive_fixed s h,
      ih]

/-- C9: however many times the guarded Active-to-Inactive transition is
driven from a fresh Active state, the notification channel is closed
exactly once, the optional callback fires exactly once (never when
absent), and the transition is idempotent. -/
theorem lifecycle_terminal_idempotent (hasCb : Bool) (k : Nat)
    (hk : 1 ≤ k) :
    (terminalTransition^[k] (Lifecycle.fresh hasCb)).inactive = true ∧
    (terminalTransition^[k] (Lifecycle.fresh hasCb)).channelCloseCount
      = 1 ∧
    (terminalTransition^[k] (Lifecycle.fresh hasCb)).cbCount
      = (if hasCb then 1 else 0) ∧
    terminalTransition (terminalTransition (Lifecycle.fresh hasCb)) =
      terminalTransition (Lifecycle.fresh hasCb) := by
  obtain ⟨j, rfl⟩ : ∃ j, k = j + 1 := ⟨k - 1, by omega⟩
  have h1 : terminalTransition (Lifecycle.fresh hasCb) =
      { inactive := true, channelCloseCount := 1,
        cbCount := if hasCb then 1 else 0, hasCb := hasCb } := by
    simp [terminalTransition, Lifecycle.fresh, Lifecycle.inactiveMode]
  have h2 : terminalTransition^[j + 1] (Lifecycle.fresh hasCb) =
      { inactive := true, channelCloseCount := 1,
        cbCount := if hasCb then 1 else 0, hasCb := hasCb } := by
    rw [Function.iterate_succ_apply, h1,
      terminalTransition_iter_fixed _ rfl j]
  refine ⟨by rw [h2], by rw [h2], by rw [h2], ?_⟩
  rw [h1]
  exact terminalTransition_inactive_fixed _ rfl

/-- Witness for C9: three transition requests with a callback present. -/
theorem lifecycle_terminal_idempotent_witness :
    (terminalTransition^[3] (Lifecycle.fresh true)).inactive = true ∧
    (terminalTransition^[3] (Lifecycle.fresh true)).channelCloseCount
      = 1 ∧
    (terminalTransition^[3] (Lifecycle.fresh true)).cbCount
      = (if true then 1 else 0) ∧
    terminalTransition (terminalTransition (Lifecycle.fresh true)) =
      terminalTransition (Lifecycle.fresh true) :=
  lifecycle_terminal_idempotent true 3 (by decide)

/-! ## C10 — MagicNumber panics where every other read method errors -/

/-- C10: while active, a failing network query makes `MagicNumber`
panic with the query error instead of returning it, and every other
read method of the family maps its query failure to an error return —
none of them can panic, for any environment. -/
theorem magic_number_panics_uniquely (c : Client) (env : Env)
    (e : GoError) (h : Uint256) (s : List Nat)
    (hact : c.inactive = false)
    (hnet : env.getNetwork = .error e) :
    c.MagicNumber env = (.panicked e, [.getNetwork]) ∧
    (c.BlockCount env).1.isPanic = false ∧
    (c.GasBalance env).1.isPanic = false ∧
    (c.Committee env).1.isPanic = false ∧
    (c.MsPerBlock env).1.isPanic = false ∧
    (c.TxHalt env h).1.isPanic = false ∧
    (c.TxHeight env h).1.isPanic = false ∧
    (c.NeoFSAlphabetList env).1.isPanic = false ∧
    (c.GetDesignateHash env).1.isPanic = false ∧
    (c.IsValidScript env s).1.isPanic = false := by
  refine ⟨?_, ?_, ?_, ?_, ?_, ?_, ?_, ?_, ?_, ?_⟩
  · simp [Client.MagicNumber, hact, hnet]
  · cases hx : env.getBlockCount 0 <;>
      simp [Client.BlockCount, hact, hx, MethodResult.isPanic]
  · cases hx : env.getNativeContractHash nativenamesGas with
    | error e2 => simp [Client.GasBalance, hact, hx, MethodResult.isPanic]
    | ok gas =>
      cases hy : env.nep17BalanceOf gas <;>
        simp [Client.GasBalance, hact, hx, hy, MethodResult.isPanic]
  · cases hx : env.getCommittee <;>
      simp [Client.Committee, hact, hx, MethodResult.isPanic]
  · cases hx : env.getVersion <;>
      simp [Client.MsPerBlock, hact, hx, MethodResult.isPanic]
  · cases hx : env.getApplicationLog h <;>
      simp [Client.TxHalt, hact, hx, MethodResult.isPanic]
  · cases hx : env.getTransactionHeight h <;>
      simp [Client.TxHeight, hact, hx, MethodResult.isPanic]
  · cases hx : env.getBlockCount 0 with
    | error e2 =>
      simp [Client.NeoFSAlphabetList, Client.roleList, hact, hx,
        MethodResult.isPanic]
    | ok height =>
      cases hy : env.getDesignatedByRole noderolesNeoFSAlphabet height <;>
        simp [Client.NeoFSAlphabetList, Client.roleList, hact, hx, hy,
          MethodResult.isPanic]
  · cases hx : env.getNativeContractHash nativenamesDesignation <;>
      simp [Client.GetDesignateHash, hact, hx, MethodResult.isPanic]
  · cases hx : env.invokeScript s <;>
      simp [Client.IsValidScript, hact, hx, MethodResult.isPanic]

/-- Witness for C10 at the concrete environment whose network query
fails. -/
theorem magic_number_panics_witness :
    clientActive.MagicNumber envBase = (.panicked (.transport 3),
      [.getNetwork]) ∧
    (clientActive.BlockCount envBase).1.isPanic = false ∧
    (clientActive.GasBalance envBase).1.isPanic = false ∧
    (clientActive.Committee envBase).1.isPanic = false ∧
    (clientActive.MsPerBlock envBase).1.isPanic = false ∧
    (clientActive.TxHalt envBase 4).1.isPanic = false ∧
    (clientActive.TxHeight envBase 4).1.isPanic = false ∧
    (clientActive.NeoFSAlphabetList envBase).1.isPanic = false ∧
    (clientActive.GetDesignateHash envBase).1.isPanic = false ∧
    (clientActive.IsValidScript envBase [2]).1.isPanic = false :=
  magic_number_panics_uniquely clientActive envBase (.transport 3) 4 [2]
    rfl rfl
